import Mathlib

/-!
# MobilityBench agent orchestration — shallow embedding

This file embeds the Plan-and-Execute and ReAct orchestration core of the
MobilityBench agent (`mobility_bench/agent/frameworks/plan_and_execute/nodes.py`,
`mobility_bench/agent/frameworks/react/nodes.py`, and the two framework
builders) and proves the frozen claims about it.

The graph state container types (`Plan`, `Step`, `Task`, `Tool`, `RawPlan`,
`Status`, `State`) live in `mobility_bench/agent/graph/state.py`, which is not
part of the provided sources; their shapes are modelled from the spec's data
model section and from how the node code reads and writes their fields.

LLM calls and tool invocations are external collaborators; each node function
is embedded as a pure function over the state plus an explicit outcome value
for its single external call. Telemetry-only state keys (token usage records,
training-capture records, execution recorders, logging) do not feed back into
control flow and are omitted from the embedding.
-/

namespace MobilityBench

/-- Modelled from the spec: task/step/plan lifecycle status from the missing
`state.py` (`Status ∈ {PENDING, EXECUTING, COMPLETED, FAILED}`). -/
inductive Status where
  | PENDING
  | EXECUTING
  | COMPLETED
  | FAILED
deriving DecidableEq, Repr

/-- Modelled from the spec: `Tool` record from the missing `state.py` —
"name + argument record of one invocation". Arguments are kept as a flat
key/value record. -/
structure Tool where
  tool_name : String
  tool_args : List (String × String) := []
deriving DecidableEq, Repr

/-- Modelled from the spec: `Task` from the missing `state.py` — unique
`task_id`, description, status, `execution_result`, list of invoked tools. -/
structure Task where
  task_id : String
  task_description : String
  status : Status := .PENDING
  execution_result : Option String := none
  tool_list : List Tool := []
deriving DecidableEq, Repr

/-- Modelled from the spec: `Step` from the missing `state.py` — a status and
an ordered sequence of tasks. -/
structure Step where
  status : Status := .PENDING
  tasks : List Task
deriving DecidableEq, Repr

/-- Modelled from the spec: `Plan` from the missing `state.py` — a status, an
ordered sequence of steps and the `current_step_index` cursor. -/
structure Plan where
  status : Status := .PENDING
  steps : List Step
  current_step_index : Nat := 0
deriving DecidableEq, Repr

/-- Modelled from the spec: `RawPlan` from the missing `state.py` —
unstructured model output (thinking, intent, ordered step descriptions). -/
structure RawPlan where
  thinking : String := ""
  intent : String := ""
  steps : List String
deriving DecidableEq, Repr

/-- Modelled from the spec: `raw_plan_to_plan` from the missing `state.py` —
converts a `RawPlan` into a `Plan`, seeding one PENDING `Task` per declared
step description; task ids are made unique per run by position. -/
def raw_plan_to_plan (rp : RawPlan) : Plan :=
  { status := .PENDING
    current_step_index := 0
    steps := rp.steps.enum.map fun (i, desc) =>
      { status := .PENDING
        tasks := [{ task_id := "task_" ++ toString i
                    task_description := desc }] } }

/-- A parsed JSON value, mirroring what Python's `json.loads` produces.
Numbers keep their source lexeme (their numeric value never influences
control flow in the embedded code); the non-standard `NaN` / `Infinity` /
`-Infinity` constants accepted by `json.loads` are kept as `num` lexemes. -/
inductive JsonVal where
  | null
  | bool (b : Bool)
  | num (lexeme : String)
  | str (s : String)
  | arr (elems : List JsonVal)
  | obj (fields : List (String × JsonVal))
deriving Repr

/-- One entry of a LangChain tool-call list (`name` and `args` of an
`AIMessage.tool_calls` element). -/
structure ToolCall where
  name : String
  args : List (String × String) := []
deriving DecidableEq, Repr

/-- The message kinds the node code distinguishes (`HumanMessage`,
`SystemMessage`, `AIMessage` with its `tool_calls`, `ToolMessage`). -/
inductive Message where
  | human (content : String)
  | system (content : String)
  | ai (content : String) (tool_calls : List ToolCall)
  | toolMsg (name : String) (content : String)
deriving DecidableEq, Repr

/-! ## String helpers mirroring the Python operations used by the nodes -/

/-- The whitespace characters stripped by Python's `str.strip()` (restricted
to the ASCII range; the embedded inputs are ASCII). -/
def pySpace (c : Char) : Bool :=
  c == ' ' || c == '\t' || c == '\n' || c == '\r' || c == Char.ofNat 11 || c == Char.ofNat 12

/-- Python `str.strip()` on ASCII text. -/
def pyStrip (s : String) : String :=
  ⟨((s.data.dropWhile pySpace).reverse.dropWhile pySpace).reverse⟩

/-- Python `s[-n:]`: the last `n` characters (the whole string when shorter). -/
def lastTake (n : Nat) (s : String) : String :=
  ⟨s.data.drop (s.data.length - n)⟩

/-- Index of the first occurrence of `pat` in `hay`, like `re.search` on a
literal pattern. -/
def firstIndexOfSub (hay pat : List Char) : Option Nat :=
  go hay 0
where
  go : List Char → Nat → Option Nat
    | [], i => if pat.isPrefixOf [] then some i else none
    | l@(_ :: t), i => if pat.isPrefixOf l then some i else go t (i + 1)

/-- The opening curly bracket character (usages avoid brace literals). -/
def lbrace : Char := Char.ofNat 123

/-- The closing curly bracket character. -/
def rbrace : Char := Char.ofNat 125

/-! ## JSON parsing (`json.loads`)

`json.loads` is embedded at the grammar level: the parser decides exactly
which texts parse, and keeps number lexemes rather than interpreting them
(no parsed number ever feeds back into the embedded control flow). Python's
non-standard `NaN`/`Infinity`/`-Infinity` constants are accepted, duplicate
object keys keep the last binding (see `jGet`), and strings reject raw
control characters, as `json.loads` does in its default strict mode. -/

/-- JSON insignificant whitespace (space, tab, newline, carriage return). -/
def jsonWs (c : Char) : Bool :=
  c == ' ' || c == '\t' || c == '\n' || c == '\r'

/-- Skip JSON whitespace. -/
def skipJsonWs : List Char → List Char
  | c :: rest => if jsonWs c then skipJsonWs rest else c :: rest
  | [] => []

/-- Value of one hexadecimal digit. -/
def hexVal (c : Char) : Option Nat :=
  if '0' ≤ c ∧ c ≤ '9' then some (c.toNat - '0'.toNat)
  else if 'a' ≤ c ∧ c ≤ 'f' then some (c.toNat - 'a'.toNat + 10)
  else if 'A' ≤ c ∧ c ≤ 'F' then some (c.toNat - 'A'.toNat + 10)
  else none

/-- Parse the integer part of a JSON number (`0` or a nonzero digit followed
by digits). Returns the consumed lexeme characters and the remainder. -/
def parseIntPart : List Char → Option (List Char × List Char)
  | [] => none
  | c :: r =>
    if c = '0' then some ([c], r)
    else if c.isDigit then
      let (ds, r2) := r.span Char.isDigit
      some (c :: ds, r2)
    else none

/-- Parse an optional JSON fraction part (`.` digits). A bare dot makes the
whole parse fail, which agrees with `json.loads` up to error position. -/
def parseFracPart : List Char → Option (List Char × List Char)
  | '.' :: r =>
    let (ds, r2) := r.span Char.isDigit
    if ds = [] then none else some ('.' :: ds, r2)
  | cs => some ([], cs)

/-- Parse an optional JSON exponent part (`e`/`E`, optional sign, digits). -/
def parseExpPart : List Char → Option (List Char × List Char)
  | c :: r =>
    if c = 'e' ∨ c = 'E' then
      let (sgn, r1) := match r with
        | s :: r1 => if s = '+' ∨ s = '-' then ([s], r1) else ([], s :: r1)
        | [] => ([], [])
      let (ds, r2) := r1.span Char.isDigit
      if ds = [] then none else some (c :: (sgn ++ ds), r2)
    else some ([], c :: r)
  | [] => some ([], [])

/-- Parse a JSON number, returning its lexeme. -/
def parseJsonNumber (cs : List Char) : Option (String × List Char) := do
  let (neg, cs1) := match cs with
    | '-' :: r => ([('-' : Char)], r)
    | _ => (([] : List Char), cs)
  let (ip, r1) ← parseIntPart cs1
  let (fp, r2) ← parseFracPart r1
  let (ep, r3) ← parseExpPart r2
  return (⟨neg ++ ip ++ fp ++ ep⟩, r3)

mutual

/-- Parse one JSON value at the head of the input (whitespace already
skipped). The fuel argument bounds recursion depth; `jsonLoads` supplies
more fuel than any input of its length can consume. -/
def parseJsonVal : Nat → List Char → Option (JsonVal × List Char)
  | 0, _ => none
  | _ + 1, [] => none
  | fuel + 1, c :: r =>
    if c = lbrace then parseJsonMembers fuel (skipJsonWs r) []
    else if c = '[' then parseJsonElems fuel (skipJsonWs r) []
    else if c = '"' then
      match parseJsonString fuel r with
      | some (s, r2) => some (.str s, r2)
      | none => none
    else if c = 't' then
      if ['r', 'u', 'e'].isPrefixOf r then some (.bool true, r.drop 3) else none
    else if c = 'f' then
      if ['a', 'l', 's', 'e'].isPrefixOf r then some (.bool false, r.drop 4) else none
    else if c = 'n' then
      if ['u', 'l', 'l'].isPrefixOf r then some (.null, r.drop 3) else none
    else if c = 'N' then
      if ['a', 'N'].isPrefixOf r then some (.num "NaN", r.drop 2) else none
    else if c = 'I' then
      if ['n', 'f', 'i', 'n', 'i', 't', 'y'].isPrefixOf r then
        some (.num "Infinity", r.drop 7)
      else none
    else if c = '-' ∧ ['I', 'n', 'f', 'i', 'n', 'i', 't', 'y'].isPrefixOf r then
      some (.num "-Infinity", r.drop 8)
    else
      match parseJsonNumber (c :: r) with
      | some (lex, r2) => some (.num lex, r2)
      | none => none

/-- Parse the members of a JSON object after the opening bracket (whitespace
skipped); `acc` holds the members parsed so far in order. -/
def parseJsonMembers : Nat → List Char → List (String × JsonVal) →
    Option (JsonVal × List Char)
  | 0, _, _ => none
  | _ + 1, [], _ => none
  | fuel + 1, c :: r, acc =>
    if c = rbrace ∧ acc.isEmpty then some (.obj [], r)
    else if c = '"' then
      match parseJsonString fuel r with
      | none => none
      | some (k, r1) =>
        match skipJsonWs r1 with
        | ':' :: r2 =>
          match parseJsonVal fuel (skipJsonWs r2) with
          | none => none
          | some (v, r3) =>
            match skipJsonWs r3 with
            | ',' :: r4 => parseJsonMembers fuel (skipJsonWs r4) (acc ++ [(k, v)])
            | d :: r4 => if d = rbrace then some (.obj (acc ++ [(k, v)]), r4) else none
            | [] => none
        | _ => none
    else none

/-- Parse the elements of a JSON array after the opening bracket (whitespace
skipped); `acc` holds the elements parsed so far in order. -/
def parseJsonElems : Nat → List Char → List JsonVal → Option (JsonVal × List Char)
  | 0, _, _ => none
  | _ + 1, [], _ => none
  | fuel + 1, c :: r, acc =>
    if c = ']' ∧ acc.isEmpty then some (.arr [], r)
    else
      match parseJsonVal fuel (c :: r) with
      | none => none
      | some (v, r1) =>
        match skipJsonWs r1 with
        | ',' :: r2 => parseJsonElems fuel (skipJsonWs r2) (acc ++ [v])
        | ']' :: r2 => some (.arr (acc ++ [v]), r2)
        | _ => none

/-- Parse a JSON string body after the opening quote, decoding escapes.
Raw control characters are rejected (strict mode). Unicode escapes decode
surrogate pairs; a lone surrogate falls back to the null character, a
harmless deviation for inputs no claim depends on. -/
def parseJsonString : Nat → List Char → Option (String × List Char)
  | 0, _ => none
  | _ + 1, [] => none
  | fuel + 1, c :: r =>
    if c = '"' then some ("", r)
    else if c = '\\' then
      match r with
      | [] => none
      | e :: r1 =>
        if e = 'u' then
          match r1 with
          | h1 :: h2 :: h3 :: h4 :: r2 =>
            match hexVal h1, hexVal h2, hexVal h3, hexVal h4 with
            | some a, some b, some cc, some d =>
              let n := ((a * 16 + b) * 16 + cc) * 16 + d
              if 0xD800 ≤ n ∧ n < 0xDC00 then
                match r2 with
                | '\\' :: 'u' :: g1 :: g2 :: g3 :: g4 :: r3 =>
                  match hexVal g1, hexVal g2, hexVal g3, hexVal g4 with
                  | some a2, some b2, some c2, some d2 =>
                    let m := ((a2 * 16 + b2) * 16 + c2) * 16 + d2
                    if 0xDC00 ≤ m ∧ m < 0xE000 then
                      let cp := 0x10000 + (n - 0xD800) * 0x400 + (m - 0xDC00)
                      match parseJsonString fuel r3 with
                      | some (s, rest) => some (⟨Char.ofNat cp :: s.data⟩, rest)
                      | none => none
                    else
                      match parseJsonString fuel r2 with
                      | some (s, rest) => some (⟨Char.ofNat n :: s.data⟩, rest)
                      | none => none
                  | _, _, _, _ => none
                | _ =>
                  match parseJsonString fuel r2 with
                  | some (s, rest) => some (⟨Char.ofNat n :: s.data⟩, rest)
                  | none => none
              else
                match parseJsonString fuel r2 with
                | some (s, rest) => some (⟨Char.ofNat n :: s.data⟩, rest)
                | none => none
            | _, _, _, _ => none
          | _ => none
        else
          let dec : Option Char :=
            if e = '"' then some '"'
            else if e = '\\' then some '\\'
            else if e = '/' then some '/'
            else if e = 'b' then some (Char.ofNat 8)
            else if e = 'f' then some (Char.ofNat 12)
            else if e = 'n' then some '\n'
            else if e = 'r' then some '\r'
            else if e = 't' then some '\t'
            else none
          match dec with
          | none => none
          | some ch =>
            match parseJsonString fuel r1 with
            | some (s, rest) => some (⟨ch :: s.data⟩, rest)
            | none => none
    else if c.toNat < 0x20 then none
    else
      match parseJsonString fuel r with
      | some (s, rest) => some (⟨c :: s.data⟩, rest)
      | none => none

end

/-- Python `json.loads`: parse one JSON document, allowing surrounding
whitespace and rejecting trailing data. Returns `none` where `json.loads`
raises `JSONDecodeError`. -/
def jsonLoads (s : String) : Option JsonVal :=
  match parseJsonVal (2 * s.data.length + 16) (skipJsonWs s.data) with
  | some (v, rest) => if skipJsonWs rest = [] then some v else none
  | none => none

/-- `dict.get(k, d)` on a parsed JSON object: duplicate keys keep the last
binding, as in the dict `json.loads` builds. -/
def jGet (fields : List (String × JsonVal)) (k : String) (d : JsonVal) : JsonVal :=
  match fields.reverse.lookup k with
  | some v => v
  | none => d

/-! ## ReAct response extraction (`react/nodes.py`) -/

/-- The fenced-block extraction of `_parse_react_response`: the regex
`search(r'```json\s*(.*?)\s*```', content, re.DOTALL)`. A literal search for
the first occurrence of the opening fence followed by any later triple
backtick is equivalent, with the greedy `\s*` borders amounting to stripping
the captured group. (If the first opening fence had no closing fence, a later
opening fence would itself contain one, so searching only from the first
occurrence loses nothing.) -/
def fenceExtract (s : String) : Option String :=
  let cs := s.data
  match firstIndexOfSub cs ("```json".data) with
  | none => none
  | some i =>
    let after := cs.drop (i + 7)
    match firstIndexOfSub after ("```".data) with
    | none => none
    | some j => some (pyStrip ⟨after.take j⟩)

/-- The raw-object extraction of `_parse_react_response`: the regex
`search(r'\{.*\}', content, re.DOTALL)`, i.e. from the first opening brace
to the last closing brace after it, braces included. -/
def braceExtract (s : String) : Option String :=
  let cs := s.data
  match cs.findIdx? (· == lbrace) with
  | none => none
  | some i =>
    match cs.reverse.findIdx? (· == rbrace) with
    | none => none
    | some k =>
      let j := cs.length - 1 - k
      if i < j then some ⟨(cs.drop i).take (j - i + 1)⟩ else none

/-- The text `_parse_react_response` feeds to `json.loads`: the stripped
content, replaced by a fenced `json` block when present, else by the first
brace-to-last-brace span when present. -/
def extractReactContent (s : String) : String :=
  let c := pyStrip s
  match fenceExtract c with
  | some inner => inner
  | none =>
    match braceExtract c with
    | some b => b
    | none => c

/-- `_parse_react_response` from `react/nodes.py`: parse the (extracted)
content as JSON, returning the parsed value as-is on success; on a
`JSONDecodeError`, fall back to an implicit finish carrying the extracted
content as the final answer. -/
def parseReactResponse (s : String) : JsonVal :=
  let content := extractReactContent s
  match jsonLoads content with
  | some v => v
  | none =>
    .obj [("thought", .str "Unable to parse response, ending with available information."),
          ("action", .str "finish"),
          ("final_answer", .str content)]

/-- Whether a parsed JSON value is a JSON object (a Python dict). -/
def JsonVal.isObj : JsonVal → Bool
  | .obj _ => true
  | _ => false

/-- Whether Python would accept `v[:100]` (strings and lists are sliceable;
`None`, bools, numbers and dicts raise `TypeError`). -/
def pySliceable : JsonVal → Bool
  | .str _ => true
  | .arr _ => true
  | _ => false

/-- Python equality of a parsed JSON value with a string literal. -/
def jsonIsStr (v : JsonVal) (s : String) : Bool :=
  match v with
  | .str t => t == s
  | _ => false

/-- The Python type name of a parsed JSON value, for exception text. -/
def pyTypeName : JsonVal → String
  | .null => "NoneType"
  | .bool _ => "bool"
  | .num lex =>
    if lex.data.any (fun c => c = '.' ∨ c = 'e' ∨ c = 'E' ∨ c = 'N' ∨ c = 'I' ∨ c = 'n') then
      "float"
    else "int"
  | .str _ => "str"
  | .arr _ => "list"
  | .obj _ => "dict"

mutual

/-- Best-effort rendering of a parsed JSON value the way a Python f-string
renders it (`str(value)`); container reprs are approximated, which only
affects logged/echoed message text that no claim inspects. -/
def pyFormat : JsonVal → String
  | .null => "None"
  | .bool true => "True"
  | .bool false => "False"
  | .num lex => lex
  | .str s => s
  | .arr l => "[" ++ pyFormatList l ++ "]"
  | .obj l => "\x7b" ++ pyFormatFields l ++ "\x7d"

/-- Best-effort Python `repr` of a parsed JSON value (strings quoted). -/
def pyFormatRepr : JsonVal → String
  | .str s => "\x27" ++ s ++ "\x27"
  | v => pyFormat v

/-- Render a list of values, comma separated. -/
def pyFormatList : List JsonVal → String
  | [] => ""
  | [v] => pyFormatRepr v
  | v :: rest => pyFormatRepr v ++ ", " ++ pyFormatList rest

/-- Render dict fields, comma separated. -/
def pyFormatFields : List (String × JsonVal) → String
  | [] => ""
  | [(k, v)] => "\x27" ++ k ++ "\x27: " ++ pyFormatRepr v
  | (k, v) :: rest => "\x27" ++ k ++ "\x27: " ++ pyFormatRepr v ++ ", " ++ pyFormatFields rest

end

/-! ## Shared state, updates and routing commands -/

/-- The record appended to `react_actions` by each reasoning pass. -/
structure ActionRec where
  action : JsonVal
  tool_name : JsonVal
  tool_args : JsonVal
deriving Repr

/-- The shared graph `State` threaded through every node. Modelled from the
spec (the `State` TypedDict lives in the missing `state.py`): fields the
node code reads through `state.get` with a per-call default are `Option`
(`react_current_action` and friends, whose defaults differ between call
sites); counters read with default `0` and flags read with falsy default are
plain `Nat`/`Bool`. Telemetry-only keys (token usage, training capture,
execution records) are omitted. -/
structure AgentState where
  query : Option String := none
  context : Option String := none
  messages : List Message := []
  poi_map : List (String × String) := []
  current_plan : Option Plan := none
  plan_iterations : Nat := 0
  current_task : Option Task := none
  planner_thinking : Option String := none
  planner_intent : Option String := none
  plan_result : Option JsonVal := none
  react_iterations : Nat := 0
  react_finish : Bool := false
  react_thoughts : List JsonVal := []
  react_actions : List ActionRec := []
  react_current_action : Option JsonVal := none
  react_current_tool_name : Option JsonVal := none
  react_current_tool_args : Option JsonVal := none
deriving Repr, Inhabited

/-- A node's returned update dictionary: `some` fields are the keys present
in the update, `none` fields are absent. -/
structure StateUpdate where
  messages : Option (List Message) := none
  current_plan : Option Plan := none
  plan_iterations : Option Nat := none
  planner_thinking : Option String := none
  planner_intent : Option String := none
  plan_result : Option JsonVal := none
  react_iterations : Option Nat := none
  react_finish : Option Bool := none
  react_thoughts : Option (List JsonVal) := none
  react_actions : Option (List ActionRec) := none
  react_current_action : Option JsonVal := none
  react_current_tool_name : Option JsonVal := none
  react_current_tool_args : Option JsonVal := none
deriving Repr

/-- One `Send("worker_node", task_state)` fan-out branch. -/
structure Send where
  target : String
  branch_state : AgentState
deriving Repr

/-- A `Command.goto`: a single node name (including the `__end__` terminal
marker) or a fan-out list of `Send` branches. -/
inductive Goto where
  | goNode (name : String)
  | goSends (sends : List Send)
deriving Repr, Inhabited

/-- A LangGraph `Command(update=..., goto=...)`; `update = none` models
`Command(goto=...)` with no update. -/
structure Command where
  update : Option StateUpdate := none
  goto : Goto
deriving Repr, Inhabited

/-- Modelled from the spec: applying an update to the authoritative state is
a flat key-overwrite merge — last writer for a key wins, no deep merge. -/
def applyUpdate (s : AgentState) (u : StateUpdate) : AgentState :=
  { s with
    messages := u.messages.getD s.messages
    current_plan := match u.current_plan with
      | some p => some p
      | none => s.current_plan
    plan_iterations := u.plan_iterations.getD s.plan_iterations
    planner_thinking := match u.planner_thinking with
      | some t => some t
      | none => s.planner_thinking
    planner_intent := match u.planner_intent with
      | some t => some t
      | none => s.planner_intent
    plan_result := match u.plan_result with
      | some r => some r
      | none => s.plan_result
    react_iterations := u.react_iterations.getD s.react_iterations
    react_finish := u.react_finish.getD s.react_finish
    react_thoughts := u.react_thoughts.getD s.react_thoughts
    react_actions := u.react_actions.getD s.react_actions
    react_current_action := match u.react_current_action with
      | some a => some a
      | none => s.react_current_action
    react_current_tool_name := match u.react_current_tool_name with
      | some a => some a
      | none => s.react_current_tool_name
    react_current_tool_args := match u.react_current_tool_args with
      | some a => some a
      | none => s.react_current_tool_args }

/-- The engine applies a returned command's update (if any) to the
authoritative state after the node settles. -/
def applyCommand (s : AgentState) (c : Command) : AgentState :=
  match c.update with
  | none => s
  | some u => applyUpdate s u

/-! ## Plan-and-Execute nodes (`plan_and_execute/nodes.py`) -/

/-- `_has_pending_step`: the plan has a step left at the cursor. -/
def hasPendingStep (plan : Plan) : Bool :=
  if plan.steps = [] then false
  else plan.current_step_index < plan.steps.length

/-- `_get_current_step`: the step at the cursor, if in range. -/
def getCurrentStep (plan : Plan) : Option Step :=
  if plan.steps = [] then none
  else if plan.current_step_index ≥ plan.steps.length then none
  else plan.steps[plan.current_step_index]?

/-- Bool test for a PENDING task status. -/
def isPendingStatus : Status → Bool
  | .PENDING => true
  | _ => false

/-- Bool test for a FAILED task status. -/
def isFailedStatus : Status → Bool
  | .FAILED => true
  | _ => false

/-- `_has_pending_worker_tasks` (its `not step` guard models the `None`
argument `_get_current_step` can produce). -/
def hasPendingWorkerTasks : Option Step → Bool
  | none => false
  | some step =>
    if step.tasks = [] then false
    else step.tasks.any fun t => isPendingStatus t.status

/-- The in-place loop of `_execute_worker_tasks`: every PENDING task of the
step is set EXECUTING. -/
def markPendingExecuting (step : Step) : Step :=
  { step with
    tasks := step.tasks.map fun t =>
      if isPendingStatus t.status then { t with status := .EXECUTING } else t }

/-- Replace the step at the plan's cursor (the pure image of mutating the
step object aliased into the plan). -/
def setCurrentStep (plan : Plan) (step : Step) : Plan :=
  { plan with steps := plan.steps.set plan.current_step_index step }

/-- `_execute_worker_tasks`: fan out one `Send("worker_node", …)` per task
that is PENDING at dispatch time, marking each such task EXECUTING (an
in-place mutation of the shared plan, returned here as the new state) and
giving each branch its own state copy with that task as `current_task`. -/
def executeWorkerTasks (state : AgentState) (plan : Plan) (step : Step) :
    AgentState × Command :=
  let pending := step.tasks.filter fun t => isPendingStatus t.status
  if pending = [] then (state, { goto := .goNode "planner" })
  else
    let plan2 := setCurrentStep plan (markPendingExecuting step)
    let state2 := { state with current_plan := some plan2 }
    let sends := pending.map fun t =>
      Send.mk "worker_node"
        { state2 with current_task := some { t with status := .EXECUTING } }
    (state2, { goto := .goSends sends })

/-- The in-place plan mutation of the advancing branch of
`_analyze_step_results_and_plan_next`: mark the current step COMPLETED and
bump the cursor by one. -/
def advancePlan (plan : Plan) (step : Step) : Plan :=
  { setCurrentStep plan { step with status := .COMPLETED } with
    current_step_index := plan.current_step_index + 1 }

/-- `_analyze_step_results_and_plan_next`: if the tasks of the settled step
all FAILED (and there is at least one), terminate towards the reporter;
otherwise mark the step COMPLETED, advance the cursor by one and loop to the
planner, sending the mutated plan back as the update. -/
def analyzeStepResults (state : AgentState) (plan : Plan) (step : Step) :
    AgentState × Command :=
  let failed := step.tasks.filter fun t => isFailedStatus t.status
  if failed ≠ [] ∧ failed.length = step.tasks.length then
    (state, { goto := .goNode "reporter" })
  else
    ({ state with current_plan := some (advancePlan plan step) },
     { update := some { current_plan := some (advancePlan plan step) },
       goto := .goNode "planner" })

/-- The outcome of the planner's single external LLM interaction in
`_generate_initial_plan`: either a `RawPlan` obtained from the structured
tool-call output or from the fenced-JSON text fallback, or a failure of both
paths (any exception inside the `try` block, which the code catches and
turns into a plain route to the reporter). -/
inductive PlanLLMOutcome where
  | parseFailure (error : String)
  | rawPlan (rp : RawPlan)
deriving Repr

/-- The first-entry seeding of the message log with context and query
(`planner_node`, first-entry branch). Empty strings are falsy in Python and
add no message. -/
def seedMessages (state : AgentState) : List Message :=
  (match state.context with
    | some c => if c = "" then [] else [Message.human ("Context information:\n" ++ c)]
    | none => []) ++
  (match state.query with
    | some q => if q = "" then [] else [Message.human ("User requirement:\n" ++ q)]
    | none => [])

/-- `_generate_initial_plan`: convert the parsed `RawPlan` and, when the
conversion yields a plan with at least one step, return the plan update
(setting `plan_iterations` to its prior value plus one) and loop to
`planner`; otherwise, or on a parse failure, route to `reporter` with no
update. The update's `messages` echo the (seeded) message log of the passed
state. -/
def generateInitialPlan (state : AgentState) (outcome : PlanLLMOutcome) : Command :=
  match outcome with
  | .parseFailure _ => { goto := .goNode "reporter" }
  | .rawPlan rp =>
    let plan := raw_plan_to_plan rp
    if plan.steps ≠ [] then
      { update := some
          { messages := some state.messages
            current_plan := some plan
            planner_thinking := some rp.thinking
            planner_intent := some rp.intent
            plan_iterations := some (state.plan_iterations + 1) }
        goto := .goNode "planner" }
    else { goto := .goNode "reporter" }

/-- `planner_node`. The returned pair is the shared state as left behind by
the node's in-place mutations, together with the routing command; `none`
models a fatal unhandled exception (only reachable through the
out-of-range-cursor corner `_get_current_step` guards against). The
`maxIter` argument is the configured `max_plan_iterations`
(`PlanAndExecuteConfig`, default 10). -/
def plannerNode (maxIter : Nat) (state : AgentState) (outcome : PlanLLMOutcome) :
    Option (AgentState × Command) :=
  let state1 :=
    if state.current_plan = none ∧ state.plan_iterations = 0 then
      { state with messages := state.messages ++ seedMessages state }
    else state
  if state.plan_iterations ≥ maxIter then
    some (state, { goto := .goNode "reporter" })
  else
    match state.current_plan with
    | none => some (state, generateInitialPlan state1 outcome)
    | some plan =>
      if hasPendingStep plan then
        if hasPendingWorkerTasks (getCurrentStep plan) then
          match getCurrentStep plan with
          | some step => some (executeWorkerTasks state plan step)
          | none => none
        else
          match getCurrentStep plan with
          | some step => some (analyzeStepResults state plan step)
          | none => none
      else some (state, { goto := .goNode "reporter" })

/-- Default `max_plan_iterations` (`PlanAndExecuteConfig` in
`config/settings.py`). -/
def MAX_PLAN_ITERATIONS : Nat := 10

/-! ## Worker node -/

/-- `_extract_task_tools`: walk the sub-agent messages in reverse and
collect the tool calls of the last `AIMessage` that has a non-empty
`tool_calls` list (the string-encoded tool-call repair branch is vacuous
here because embedded tool calls are already structured). -/
def extractTaskTools (msgs : List Message) : List Tool :=
  go msgs.reverse
where
  go : List Message → List Tool
    | [] => []
    | .ai _ tcs :: rest =>
      if tcs = [] then go rest
      else tcs.map fun tc => { tool_name := tc.name, tool_args := tc.args }
    | _ :: rest => go rest

/-- The two flow-control tool names a worker must not call. -/
def forbidden_flow_tools : List String := ["handoff_to_planner", "handoff_to_reporter"]

/-- The outcome of the worker's single external sub-agent invocation: the
message list of the sub-agent run, or an exception escaping it. -/
inductive AgentOutcome where
  | ok (messages : List Message)
  | err (error : String)
deriving Repr

/-- The `Task_xxxxxxxx: description` message `worker_node` builds. -/
def workerTaskMessage (task : Task) : Message :=
  .ai ("Task_" ++ lastTake 8 task.task_id ++ ": " ++ task.task_description) []

/-- `worker_node`: classify the sub-agent outcome for `current_task`. The
first component is the task object after the node's in-place mutations (the
same object aliased into the shared plan). A forbidden flow-control tool
call fails the task with the reason recorded on it and returns with no
update; zero tool calls fail the task with a no-tools reason; otherwise the
task completes and the sub-agent messages are merged; an exception fails the
task with the exception text. Training-data and token-usage update keys are
telemetry and omitted. -/
def workerNode (state : AgentState) (outcome : AgentOutcome) :
    Option Task × Command :=
  match state.current_task with
  | none => (none, { goto := .goNode "planner" })
  | some task =>
    let taskMessage := workerTaskMessage task
    match outcome with
    | .err e =>
      (some { task with
                execution_result := some ("Worker task failed: " ++ e)
                status := .FAILED },
       { update := some
           { messages := some [taskMessage, .ai ("Task execution exception: " ++ e) []] }
         goto := .goNode "planner" })
    | .ok msgs =>
      let tool_list := extractTaskTools msgs
      let used_forbidden :=
        (tool_list.filter fun t => forbidden_flow_tools.contains t.tool_name).map
          fun t => t.tool_name
      if used_forbidden ≠ [] then
        (some { task with
                  execution_result := some
                    ("Task failed: Worker should not use flow control tools (" ++
                      String.intercalate ", " used_forbidden ++ ")")
                  tool_list := tool_list
                  status := .FAILED },
         { goto := .goNode "planner" })
      else if tool_list = [] then
        (some { task with
                  execution_result := some
                    ("Task failed: No tools called. Task description: " ++
                      task.task_description)
                  tool_list := []
                  status := .FAILED },
         { update := some { messages := some [taskMessage] }
           goto := .goNode "planner" })
      else
        (some { task with status := .COMPLETED },
         { update := some { messages := some msgs }
           goto := .goNode "planner" })

/-! ## ReAct nodes (`react/nodes.py`) -/

/-- The module-level iteration cap of the ReAct loop. -/
def MAX_REACT_ITERATIONS : Nat := 15

/-- The outcome of the reasoning node's single LLM call. -/
inductive ReactOutcome where
  | llmError (error : String)
  | response (content : String)
deriving Repr

/-- The error-path command of `reasoning_node` (both the `except` handler
and the iteration-cap short circuit produce this shape). -/
def reasoningErrorCommand (msg : String) : Command :=
  { update := some { react_finish := some true, plan_result := some (.str msg) }
    goto := .goNode "action" }

/-- `reasoning_node`: force a finish at the iteration cap; otherwise parse
the LLM response and record the decision, incrementing `react_iterations` by
one; an LLM error, a parsed response that is not a dict, or a non-sliceable
`thought` (the `thought[:100]` log line) land in the `except` handler, which
forces a finish without incrementing. The `token_usage` update key is
telemetry and omitted. -/
def reasoningNode (state : AgentState) (outcome : ReactOutcome) : Command :=
  let iterations := state.react_iterations
  if iterations ≥ MAX_REACT_ITERATIONS then
    reasoningErrorCommand "Reached maximum iterations. Please try with a simpler query."
  else
    match outcome with
    | .llmError e => reasoningErrorCommand ("Error during reasoning: " ++ e)
    | .response content =>
      match parseReactResponse content with
      | .obj fields =>
        let thought := jGet fields "thought" (.str "")
        if pySliceable thought then
          let action := jGet fields "action" (.str "finish")
          let tool_name := jGet fields "tool_name" (.str "")
          let tool_args := jGet fields "tool_args" (.obj [])
          let final_answer := jGet fields "final_answer" (.str "")
          let newMessages := state.messages ++
            [Message.ai ("Thought: " ++ pyFormat thought ++ "\nAction: " ++ pyFormat action) []]
          let base : StateUpdate :=
            { messages := some newMessages
              react_iterations := some (iterations + 1)
              react_thoughts := some (state.react_thoughts ++ [thought])
              react_actions := some (state.react_actions ++
                [{ action := action, tool_name := tool_name, tool_args := tool_args }])
              react_current_action := some action
              react_current_tool_name := some tool_name
              react_current_tool_args := some tool_args }
          let upd :=
            if jsonIsStr action "finish" then
              { base with react_finish := some true, plan_result := some final_answer }
            else base
          { update := some upd, goto := .goNode "action" }
        else
          reasoningErrorCommand
            ("Error during reasoning: \x27" ++ pyTypeName thought ++
              "\x27 object is not subscriptable")
      | v =>
        reasoningErrorCommand
          ("Error during reasoning: \x27" ++ pyTypeName v ++
            "\x27 object has no attribute \x27get\x27")

/-- `should_continue`: end the loop when `react_finish` is set, the
iteration count has reached the cap, or the current action equals
`"finish"`; continue otherwise. (Each `state.get` default is applied at its
call site: the action default here is the empty string.) -/
def shouldContinue (state : AgentState) : String :=
  if state.react_finish then "end"
  else if state.react_iterations ≥ MAX_REACT_ITERATIONS then "end"
  else if jsonIsStr (state.react_current_action.getD (.str "")) "finish" then "end"
  else "continue"

/-! ## Framework `prepare_initial_state` (`plan_and_execute/builder.py`,
`react/builder.py`)

The initial state is a plain Python dict whose extra keyword arguments are
open-ended, so it is embedded as an association list of typed values; a
keyword argument may carry a value of any shape, hence the value sum type. -/

/-- A value stored in the initial state dict. -/
inductive KwVal where
  | noneV
  | str (s : String)
  | natV (n : Nat)
  | boolV (b : Bool)
  | msgs (l : List Message)
  | poiMap (m : List (String × String))
  | planV (p : Option Plan)
  | thoughtsV (l : List JsonVal)
  | actionsV (l : List ActionRec)
  | jsonV (v : JsonVal)
deriving Repr

/-- `state[key] = value` guarded by `if key not in state` (dict insertion
order puts new keys at the end). -/
def insertIfAbsent (st : List (String × KwVal)) (k : String) (v : KwVal) :
    List (String × KwVal) :=
  if (st.lookup k).isSome then st else st ++ [(k, v)]

/-- The kwargs-merging loop shared by both `prepare_initial_state`
implementations. -/
def mergeKwargs (st : List (String × KwVal)) (kwargs : List (String × KwVal)) :
    List (String × KwVal) :=
  kwargs.foldl (fun s kv => insertIfAbsent s kv.1 kv.2) st

/-- Python `Optional[str]` as a dict value. -/
def optStrVal : Option String → KwVal
  | some s => .str s
  | none => .noneV

/-- `PlanAndExecuteFramework.prepare_initial_state`. -/
def prepareInitialStatePE (query : String) (context : Option String)
    (kwargs : List (String × KwVal)) : List (String × KwVal) :=
  let state : List (String × KwVal) :=
    [("query", .str query),
     ("context", optStrVal context),
     ("messages", .msgs []),
     ("poi_map", (kwargs.lookup "poi_map").getD (.poiMap [])),
     ("current_plan", .planV none),
     ("plan_iterations", .natV 0)]
  mergeKwargs state kwargs

/-- `ReactFramework.prepare_initial_state`. -/
def prepareInitialStateReact (query : String) (context : Option String)
    (kwargs : List (String × KwVal)) : List (String × KwVal) :=
  let state : List (String × KwVal) :=
    [("query", .str query),
     ("context", optStrVal context),
     ("messages", .msgs []),
     ("poi_map", (kwargs.lookup "poi_map").getD (.poiMap [])),
     ("react_iterations", .natV 0),
     ("react_thoughts", .thoughtsV []),
     ("react_actions", .actionsV []),
     ("react_finish", .boolV false),
     ("plan_result", .noneV)]
  mergeKwargs state kwargs

/-! ## Shared lemmas -/

/-- A successful `_get_current_step` means the cursor is in range and names
the indexed step. -/
lemma getCurrentStep_some {plan : Plan} {step : Step}
    (h : getCurrentStep plan = some step) :
    plan.current_step_index < plan.steps.length ∧
      plan.steps[plan.current_step_index]? = some step := by
  unfold getCurrentStep at h
  split at h
  · exact absurd h (by simp)
  · split at h
    · exact absurd h (by simp)
    · exact ⟨by omega, h⟩

/-- A successful `_get_current_step` implies `_has_pending_step`. -/
lemma hasPendingStep_of_getCurrentStep {plan : Plan} {step : Step}
    (h : getCurrentStep plan = some step) : hasPendingStep plan = true := by
  obtain ⟨hlt, _⟩ := getCurrentStep_some h
  unfold hasPendingStep
  split
  · rename_i hnil
    rw [hnil] at hlt
    simp at hlt
  · simpa using hlt

/-- Branch equation: at the iteration cap, `planner_node` returns a bare
route to `reporter`. -/
lemma plannerNode_cap_eq (maxIter : Nat) (state : AgentState)
    (outcome : PlanLLMOutcome) (h : maxIter ≤ state.plan_iterations) :
    plannerNode maxIter state outcome =
      some (state, { update := none, goto := .goNode "reporter" }) := by
  unfold plannerNode
  simp [h]

/-- Branch equation: all steps consumed routes to `reporter`. -/
lemma plannerNode_allDone_eq (maxIter : Nat) (state : AgentState)
    (outcome : PlanLLMOutcome) (plan : Plan)
    (hcap : ¬ state.plan_iterations ≥ maxIter)
    (hplan : state.current_plan = some plan)
    (hnp : ¬ hasPendingStep plan = true) :
    plannerNode maxIter state outcome =
      some (state, { update := none, goto := .goNode "reporter" }) := by
  unfold plannerNode
  rw [hplan]
  simp [hcap, hnp]

/-- Branch equation: a current step with pending worker tasks dispatches
through `_execute_worker_tasks`. -/
lemma plannerNode_execute_eq (maxIter : Nat) (state : AgentState)
    (outcome : PlanLLMOutcome) (plan : Plan) (step : Step)
    (hcap : ¬ state.plan_iterations ≥ maxIter)
    (hplan : state.current_plan = some plan)
    (hstep : getCurrentStep plan = some step)
    (hwork : hasPendingWorkerTasks (some step) = true) :
    plannerNode maxIter state outcome =
      some (executeWorkerTasks state plan step) := by
  unfold plannerNode
  rw [hplan]
  simp [hcap, hasPendingStep_of_getCurrentStep hstep, hstep, hwork]

/-- Branch equation: a current step with no pending worker tasks is analyzed
through `_analyze_step_results_and_plan_next`. -/
lemma plannerNode_analyze_eq (maxIter : Nat) (state : AgentState)
    (outcome : PlanLLMOutcome) (plan : Plan) (step : Step)
    (hcap : ¬ state.plan_iterations ≥ maxIter)
    (hplan : state.current_plan = some plan)
    (hstep : getCurrentStep plan = some step)
    (hwork : hasPendingWorkerTasks (some step) = false) :
    plannerNode maxIter state outcome =
      some (analyzeStepResults state plan step) := by
  unfold plannerNode
  rw [hplan]
  simp [hcap, hasPendingStep_of_getCurrentStep hstep, hstep, hwork]

/-- Branch equation: `_execute_worker_tasks` with nothing pending loops to
`planner`. -/
lemma executeWorkerTasks_empty_eq (state : AgentState) (plan : Plan) (step : Step)
    (h : (step.tasks.filter fun t => isPendingStatus t.status) = []) :
    executeWorkerTasks state plan step =
      (state, { update := none, goto := .goNode "planner" }) := by
  unfold executeWorkerTasks
  rw [if_pos h]

/-- Branch equation: `_execute_worker_tasks` with pending tasks fans out. -/
lemma executeWorkerTasks_dispatch_eq (state : AgentState) (plan : Plan) (step : Step)
    (h : (step.tasks.filter fun t => isPendingStatus t.status) ≠ []) :
    executeWorkerTasks state plan step =
      ({ state with
           current_plan := some (setCurrentStep plan (markPendingExecuting step)) },
       { update := none,
         goto := .goSends ((step.tasks.filter fun t => isPendingStatus t.status).map
           fun t => Send.mk "worker_node"
             { state with
                 current_plan := some (setCurrentStep plan (markPendingExecuting step)),
                 current_task := some { t with status := .EXECUTING } }) }) := by
  unfold executeWorkerTasks
  rw [if_neg h]

/-- Branch equation: `_analyze_step_results_and_plan_next` with every task
FAILED terminates towards `reporter`. -/
lemma analyzeStepResults_allFailed_eq (state : AgentState) (plan : Plan) (step : Step)
    (h : (step.tasks.filter fun t => isFailedStatus t.status) ≠ [] ∧
      (step.tasks.filter fun t => isFailedStatus t.status).length = step.tasks.length) :
    analyzeStepResults state plan step =
      (state, { update := none, goto := .goNode "reporter" }) := by
  unfold analyzeStepResults
  rw [if_pos h]

/-- Branch equation: `_analyze_step_results_and_plan_next` with a surviving
task completes the step and advances the cursor. -/
lemma analyzeStepResults_advance_eq (state : AgentState) (plan : Plan) (step : Step)
    (h : ¬ ((step.tasks.filter fun t => isFailedStatus t.status) ≠ [] ∧
      (step.tasks.filter fun t => isFailedStatus t.status).length = step.tasks.length)) :
    analyzeStepResults state plan step =
      ({ state with current_plan := some (advancePlan plan step) },
       { update := some { current_plan := some (advancePlan plan step) },
         goto := .goNode "planner" }) := by
  unfold analyzeStepResults
  rw [if_neg h]

/-- A true `_has_pending_step` puts the cursor strictly below the step
count and makes `_get_current_step` succeed on the indexed step. -/
lemma getCurrentStep_of_hasPendingStep {plan : Plan}
    (h : hasPendingStep plan = true) :
    ∃ hlt : plan.current_step_index < plan.steps.length,
      getCurrentStep plan =
        some (plan.steps.get ⟨plan.current_step_index, hlt⟩) := by
  unfold hasPendingStep at h
  by_cases hnil : plan.steps = []
  · rw [if_pos hnil] at h
    simp at h
  · rw [if_neg hnil] at h
    have hlt : plan.current_step_index < plan.steps.length := by simpa using h
    refine ⟨hlt, ?_⟩
    unfold getCurrentStep
    rw [if_neg hnil, if_neg (by omega)]
    simp [List.getElem?_eq_getElem hlt]

/-- Sample state/plan/step/task values used by the witnesses. -/
def sampleTaskA : Task := { task_id := "task_0", task_description := "find a cafe" }

/-- A second sample task. -/
def sampleTaskB : Task :=
  { task_id := "task_1", task_description := "check traffic", status := .COMPLETED }

/-- A sample step with one pending and one completed task. -/
def sampleStep : Step := { tasks := [sampleTaskA, sampleTaskB] }

/-- A sample one-step plan with the cursor at its start. -/
def samplePlan : Plan := { steps := [sampleStep] }

/-- A sample state holding `samplePlan`. -/
def sampleState : AgentState := { current_plan := some samplePlan }

/-! ## C3 — iteration cap -/

/-- C3: whenever `plan_iterations` has reached the configured maximum,
`planner_node` returns a bare route to `reporter` — no state update —
regardless of the plan contents and of the LLM outcome. -/
theorem claim3_iteration_cap_routes_reporter
    (maxIter : Nat) (state : AgentState) (outcome : PlanLLMOutcome)
    (h : maxIter ≤ state.plan_iterations) :
    plannerNode maxIter state outcome =
      some (state, { update := none, goto := .goNode "reporter" }) := by
  unfold plannerNode
  simp [h]

/-- C3 witness: a state at the default cap of 10 routes to `reporter`. -/
theorem claim3_witness :
    plannerNode MAX_PLAN_ITERATIONS { plan_iterations := 10, current_plan := some samplePlan }
      (.rawPlan { steps := ["extra step"] }) =
      some ({ plan_iterations := 10, current_plan := some samplePlan },
            { update := none, goto := .goNode "reporter" }) :=
  claim3_iteration_cap_routes_reporter MAX_PLAN_ITERATIONS
    { plan_iterations := 10, current_plan := some samplePlan }
    (.rawPlan { steps := ["extra step"] }) (by decide)

/-! ## C5 — initial planning outcomes -/

/-- C5: on first entry (no plan, zero iterations, cap not yet reached),
a failure of both parse paths or a converted plan with zero steps routes
straight to `reporter` with no update — `plan_iterations` stays 0 and no
task is created — while a successful parse whose converted plan has at
least one step loops to `planner` with `plan_iterations` set to exactly 1. -/
theorem claim5_initial_planning
    (maxIter : Nat) (state : AgentState)
    (h0 : state.current_plan = none) (h1 : state.plan_iterations = 0)
    (hm : 0 < maxIter) :
    (∀ e, plannerNode maxIter state (.parseFailure e) =
      some (state, { update := none, goto := .goNode "reporter" })) ∧
    (∀ rp : RawPlan, (raw_plan_to_plan rp).steps = [] →
      plannerNode maxIter state (.rawPlan rp) =
        some (state, { update := none, goto := .goNode "reporter" })) ∧
    (∀ rp : RawPlan, (raw_plan_to_plan rp).steps ≠ [] →
      ∃ u : StateUpdate,
        plannerNode maxIter state (.rawPlan rp) =
          some (state, { update := some u, goto := .goNode "planner" }) ∧
        u.plan_iterations = some 1 ∧
        u.current_plan = some (raw_plan_to_plan rp)) := by
  have hcap : ¬ state.plan_iterations ≥ maxIter := by omega
  refine ⟨fun e => ?_, fun rp hz => ?_, fun rp hnz => ?_⟩
  · unfold plannerNode
    rw [h0]
    simp [hcap, generateInitialPlan]
  · unfold plannerNode
    rw [h0]
    simp [hcap, generateInitialPlan, hz]
  · unfold plannerNode
    rw [h0]
    refine ⟨{ messages := some (state.messages ++ seedMessages state),
              current_plan := some (raw_plan_to_plan rp),
              planner_thinking := some rp.thinking,
              planner_intent := some rp.intent,
              plan_iterations := some 1 }, ?_, rfl, rfl⟩
    simp [hcap, generateInitialPlan, hnz, h1]
    omega

/-- A fresh initial state (no plan, zero iterations), as
`prepare_initial_state` produces. -/
def initialStateSample : AgentState := {}

/-- C5 witness: a first planning pass that yields a one-step raw plan sets
`plan_iterations` to exactly 1 and loops to `planner`. -/
theorem claim5_witness :
    ∃ u : StateUpdate,
      plannerNode 10 initialStateSample (.rawPlan { steps := ["look up the weather"] }) =
        some (initialStateSample, { update := some u, goto := .goNode "planner" }) ∧
      u.plan_iterations = some 1 ∧
      u.current_plan = some (raw_plan_to_plan { steps := ["look up the weather"] }) :=
  (claim5_initial_planning 10 initialStateSample rfl rfl (by decide)).2.2
    { steps := ["look up the weather"] } (by decide)

/-! ## C6 — forbidden flow-control tools -/

/-- C6: when the tool calls extracted from the sub-agent run include a
disallowed flow-control tool name, `worker_node` fails the task, records the
flow-control reason (naming exactly the offending tools) in
`execution_result`, and returns to `planner` with no state update, so the
sub-agent messages are not merged. -/
theorem claim6_forbidden_tool_failure
    (state : AgentState) (task : Task) (msgs : List Message)
    (htask : state.current_task = some task)
    (hforb : ((extractTaskTools msgs).filter
        fun t => forbidden_flow_tools.contains t.tool_name) ≠ []) :
    ∃ t2 : Task,
      workerNode state (.ok msgs) =
        (some t2, { update := none, goto := .goNode "planner" }) ∧
      t2.status = .FAILED ∧
      t2.tool_list = extractTaskTools msgs ∧
      t2.execution_result = some
        ("Task failed: Worker should not use flow control tools (" ++
          String.intercalate ", "
            (((extractTaskTools msgs).filter
                fun t => forbidden_flow_tools.contains t.tool_name).map
              fun t => t.tool_name) ++ ")") ∧
      (((extractTaskTools msgs).filter
          fun t => forbidden_flow_tools.contains t.tool_name).map
        fun t => t.tool_name) ≠ [] := by
  have hmap : (((extractTaskTools msgs).filter
      fun t => forbidden_flow_tools.contains t.tool_name).map
      fun t => t.tool_name) ≠ [] := by
    simpa using hforb
  refine ⟨{ task with
              execution_result := some
                ("Task failed: Worker should not use flow control tools (" ++
                  String.intercalate ", "
                    (((extractTaskTools msgs).filter
                        fun t => forbidden_flow_tools.contains t.tool_name).map
                      fun t => t.tool_name) ++ ")")
              tool_list := extractTaskTools msgs
              status := .FAILED }, ?_, rfl, rfl, rfl, hmap⟩
  have hmap2 : (((extractTaskTools msgs).filter
      fun t => decide (t.tool_name ∈ forbidden_flow_tools)).map
      fun t => t.tool_name) ≠ [] := by
    simpa using hmap
  unfold workerNode
  rw [htask]
  simp [hmap2]

/-- C6 witness: a sub-agent run that called `handoff_to_planner` fails the
task with the flow-control reason and merges nothing. -/
theorem claim6_witness :
    ∃ t2 : Task,
      workerNode { current_task := some sampleTaskA }
          (.ok [.ai "delegating" [{ name := "handoff_to_planner" }]]) =
        (some t2, { update := none, goto := .goNode "planner" }) ∧
      t2.status = .FAILED ∧
      t2.tool_list = extractTaskTools [.ai "delegating" [{ name := "handoff_to_planner" }]] ∧
      t2.execution_result = some
        ("Task failed: Worker should not use flow control tools (" ++
          String.intercalate ", "
            (((extractTaskTools [.ai "delegating" [{ name := "handoff_to_planner" }]]).filter
                fun t => forbidden_flow_tools.contains t.tool_name).map
              fun t => t.tool_name) ++ ")") ∧
      (((extractTaskTools [.ai "delegating" [{ name := "handoff_to_planner" }]]).filter
          fun t => forbidden_flow_tools.contains t.tool_name).map
        fun t => t.tool_name) ≠ [] :=
  claim6_forbidden_tool_failure { current_task := some sampleTaskA } sampleTaskA
    [.ai "delegating" [{ name := "handoff_to_planner" }]] rfl (by decide)

/-! ## C7 — zero tool calls -/

/-- C7: when the sub-agent run yields zero extracted tool calls,
`worker_node` fails the task, recording the no-tools reason in
`execution_result` and an empty tool list, and routes back to `planner`. -/
theorem claim7_no_tools_failure
    (state : AgentState) (task : Task) (msgs : List Message)
    (htask : state.current_task = some task)
    (hnone : extractTaskTools msgs = []) :
    ∃ (t2 : Task) (cmd : Command),
      workerNode state (.ok msgs) = (some t2, cmd) ∧
      t2.status = .FAILED ∧
      t2.execution_result = some
        ("Task failed: No tools called. Task description: " ++ task.task_description) ∧
      t2.tool_list = [] ∧
      cmd.goto = .goNode "planner" := by
  refine ⟨{ task with
              execution_result := some
                ("Task failed: No tools called. Task description: " ++
                  task.task_description)
              tool_list := []
              status := .FAILED },
          { update := some { messages := some [workerTaskMessage task] }
            goto := .goNode "planner" }, ?_, rfl, rfl, rfl, rfl⟩
  unfold workerNode
  rw [htask]
  simp [hnone]

/-- C7 witness: a sub-agent run whose messages carry no tool calls fails the
task with the no-tools reason. -/
theorem claim7_witness :
    ∃ (t2 : Task) (cmd : Command),
      workerNode { current_task := some sampleTaskA } (.ok [.ai "all done" []]) =
        (some t2, cmd) ∧
      t2.status = .FAILED ∧
      t2.execution_result = some
        ("Task failed: No tools called. Task description: " ++
          sampleTaskA.task_description) ∧
      t2.tool_list = [] ∧
      cmd.goto = .goNode "planner" :=
  claim7_no_tools_failure { current_task := some sampleTaskA } sampleTaskA
    [.ai "all done" []] rfl (by decide)

/-! ## C2 — settled-step analysis -/

/-- C2: when `planner_node` (below its iteration cap) evaluates a current
step with at least one task, all of them settled: if every task FAILED it
routes to `reporter` with no update, leaving the step unmarked and the
cursor unchanged; otherwise it marks the step COMPLETED, advances
`current_step_index` by exactly 1 and loops back to `planner`, shipping the
mutated plan as the update. -/
theorem claim2_settled_step_analysis
    (maxIter : Nat) (state : AgentState) (outcome : PlanLLMOutcome)
    (plan : Plan) (step : Step)
    (hcap : state.plan_iterations < maxIter)
    (hplan : state.current_plan = some plan)
    (hstep : getCurrentStep plan = some step)
    (hne : step.tasks ≠ [])
    (hsettled : ∀ t ∈ step.tasks, t.status = .COMPLETED ∨ t.status = .FAILED) :
    ((∀ t ∈ step.tasks, t.status = .FAILED) →
      plannerNode maxIter state outcome =
        some (state, { update := none, goto := .goNode "reporter" })) ∧
    ((∃ t ∈ step.tasks, t.status ≠ .FAILED) →
      ∃ plan2 : Plan,
        plannerNode maxIter state outcome =
          some ({ state with current_plan := some plan2 },
                { update := some { current_plan := some plan2 },
                  goto := .goNode "planner" }) ∧
        plan2.current_step_index = plan.current_step_index + 1 ∧
        plan2.steps.length = plan.steps.length ∧
        plan2.steps[plan.current_step_index]? = some { step with status := .COMPLETED }) := by
  have hlt := (getCurrentStep_some hstep).1
  have hnp : hasPendingWorkerTasks (some step) = false := by
    unfold hasPendingWorkerTasks
    simp only [List.any_eq_true, not_exists]
    rw [if_neg hne]
    simp only [List.any_eq_false]
    intro t ht
    rcases hsettled t ht with h | h <;> simp [isPendingStatus, h]
  have hcap2 : ¬ state.plan_iterations ≥ maxIter := by omega
  have hroute : plannerNode maxIter state outcome =
      some (analyzeStepResults state plan step) := by
    unfold plannerNode
    rw [hplan]
    simp [hcap2, hasPendingStep_of_getCurrentStep hstep, hstep, hnp]
  constructor
  · intro hall
    have hfilter : (step.tasks.filter fun t => isFailedStatus t.status) = step.tasks := by
      rw [List.filter_eq_self]
      intro t ht
      simp [isFailedStatus, hall t ht]
    rw [hroute]
    unfold analyzeStepResults
    rw [if_pos ⟨by rw [hfilter]; exact hne, by rw [hfilter]⟩]
  · rintro ⟨t, ht, htf⟩
    have hlen : ((step.tasks.filter fun t => isFailedStatus t.status).length ≠
        step.tasks.length) := by
      intro hl
      have hall := List.filter_length_eq_length.mp hl
      have hft := hall t ht
      apply htf
      revert hft
      cases t.status <;> simp [isFailedStatus]
    refine ⟨advancePlan plan step, ?_, rfl, ?_, ?_⟩
    · rw [hroute]
      unfold analyzeStepResults
      rw [if_neg (by intro h; exact hlen h.2)]
    · simp [advancePlan, setCurrentStep]
    · simp [advancePlan, setCurrentStep, List.getElem?_set_self, hlt]

/-- A settled step: one COMPLETED task, one FAILED task. -/
def settledStep : Step :=
  { tasks := [{ task_id := "task_0", task_description := "find a cafe",
                status := .COMPLETED },
              { task_id := "task_1", task_description := "check traffic",
                status := .FAILED }] }

/-- A one-step plan whose only step is settled. -/
def settledPlan : Plan := { steps := [settledStep] }

/-- A state holding `settledPlan`. -/
def settledState : AgentState := { current_plan := some settledPlan }

/-- C2 witness: a settled step with one surviving task is marked COMPLETED
and the cursor advances by exactly one. -/
theorem claim2_witness :
    ∃ plan2 : Plan,
      plannerNode 10 settledState (.parseFailure "") =
        some ({ settledState with current_plan := some plan2 },
              { update := some { current_plan := some plan2 },
                goto := .goNode "planner" }) ∧
      plan2.current_step_index = settledPlan.current_step_index + 1 ∧
      plan2.steps.length = settledPlan.steps.length ∧
      plan2.steps[settledPlan.current_step_index]? =
        some { settledStep with status := .COMPLETED } :=
  (claim2_settled_step_analysis 10 settledState (.parseFailure "") settledPlan settledStep
    (by decide) rfl (by decide) (by decide) (by decide)).2 (by decide)

/-! ## C1 — fan-out dispatch and worker settlement -/

/-- C1: when `planner_node` (below its cap) runs on a plan whose current
step still has PENDING tasks, it fans out exactly one `Send` to
`worker_node` per task PENDING at dispatch time — each branch carrying its
own state copy whose `current_task` is that task marked EXECUTING, and the
shared plan showing exactly the formerly PENDING tasks of the current step
as EXECUTING — and every `worker_node` invocation holding a task settles it
to COMPLETED or FAILED (never PENDING or EXECUTING) and routes back to
`planner`, whatever its sub-agent outcome. -/
theorem claim1_fanout_dispatch_and_worker_settlement :
    (∀ (maxIter : Nat) (state : AgentState) (outcome : PlanLLMOutcome)
       (plan : Plan) (step : Step),
      state.plan_iterations < maxIter →
      state.current_plan = some plan →
      getCurrentStep plan = some step →
      (step.tasks.any fun t => isPendingStatus t.status) = true →
      ∃ (state2 : AgentState) (sends : List Send),
        plannerNode maxIter state outcome =
          some (state2, { update := none, goto := .goSends sends }) ∧
        sends.length = (step.tasks.filter fun t => isPendingStatus t.status).length ∧
        (∀ (i : Nat) (hi : i < sends.length),
          sends[i].target = "worker_node" ∧
          ∃ hp : i < (step.tasks.filter fun t => isPendingStatus t.status).length,
            sends[i].branch_state.current_task =
              some { (step.tasks.filter fun t => isPendingStatus t.status)[i] with
                     status := Status.EXECUTING }) ∧
        (∃ (plan2 : Plan) (step2 : Step),
          state2.current_plan = some plan2 ∧
          plan2.current_step_index = plan.current_step_index ∧
          plan2.steps.length = plan.steps.length ∧
          plan2.steps[plan.current_step_index]? = some step2 ∧
          step2.tasks.length = step.tasks.length ∧
          ∀ (j : Nat) (hj : j < step.tasks.length),
            step2.tasks[j]? = some
              (if isPendingStatus step.tasks[j].status
               then { step.tasks[j] with status := Status.EXECUTING }
               else step.tasks[j]))) ∧
    (∀ (state : AgentState) (task : Task) (outcome : AgentOutcome),
      state.current_task = some task →
      ∃ (t2 : Task) (cmd : Command),
        workerNode state outcome = (some t2, cmd) ∧
        (t2.status = .COMPLETED ∨ t2.status = .FAILED) ∧
        cmd.goto = .goNode "planner") := by
  constructor
  · intro maxIter state outcome plan step hcap hplan hstep hpend
    have hlt := (getCurrentStep_some hstep).1
    have hcap2 : ¬ state.plan_iterations ≥ maxIter := by omega
    have hfilter : (step.tasks.filter fun t => isPendingStatus t.status) ≠ [] := by
      intro hnil
      rw [List.any_eq_true] at hpend
      obtain ⟨t, ht, hpt⟩ := hpend
      exact absurd (List.filter_eq_nil_iff.mp hnil t ht) (by simp [hpt])
    have hne2 : step.tasks ≠ [] := by
      intro h
      rw [List.any_eq_true] at hpend
      obtain ⟨t, ht, _⟩ := hpend
      rw [h] at ht
      simp at ht
    have hworkers : hasPendingWorkerTasks (some step) = true := by
      simp only [hasPendingWorkerTasks, if_neg hne2]
      exact hpend
    have hroute : plannerNode maxIter state outcome =
        some (executeWorkerTasks state plan step) := by
      unfold plannerNode
      rw [hplan]
      simp [hcap2, hasPendingStep_of_getCurrentStep hstep, hstep, hworkers]
    have hexec : executeWorkerTasks state plan step =
        ({ state with
             current_plan := some (setCurrentStep plan (markPendingExecuting step)) },
         { update := none,
           goto := .goSends ((step.tasks.filter fun t => isPendingStatus t.status).map
             fun t => Send.mk "worker_node"
               { state with
                   current_plan := some (setCurrentStep plan (markPendingExecuting step)),
                   current_task := some { t with status := .EXECUTING } }) }) := by
      unfold executeWorkerTasks
      rw [if_neg hfilter]
    refine ⟨_, _, by rw [hroute, hexec], by simp, ?_, ?_⟩
    · intro i hi
      have hp : i < (step.tasks.filter fun t => isPendingStatus t.status).length := by
        simpa using hi
      exact ⟨by simp, hp, by simp⟩
    · refine ⟨setCurrentStep plan (markPendingExecuting step),
              markPendingExecuting step, rfl, rfl, by simp [setCurrentStep], ?_, ?_, ?_⟩
      · simp [setCurrentStep, List.getElem?_set_self, hlt]
      · simp [markPendingExecuting]
      · intro j hj
        simp [markPendingExecuting, List.getElem?_map,
          List.getElem?_eq_getElem, hj]
  · intro state task outcome htask
    cases outcome with
    | err e =>
      have heq : workerNode state (.err e) =
          (some { task with
                    execution_result := some ("Worker task failed: " ++ e),
                    status := .FAILED },
           { update := some
               { messages :=
                   some [workerTaskMessage task,
                         .ai ("Task execution exception: " ++ e) []] },
             goto := .goNode "planner" }) := by
        unfold workerNode
        rw [htask]
      exact ⟨_, _, heq, Or.inr rfl, rfl⟩
    | ok msgs =>
      by_cases hforb : (((extractTaskTools msgs).filter
          fun t => forbidden_flow_tools.contains t.tool_name).map
          fun t => t.tool_name) = []
      · by_cases hempty : extractTaskTools msgs = []
        · have heq : workerNode state (.ok msgs) =
              (some { task with
                        execution_result := some
                          ("Task failed: No tools called. Task description: " ++
                            task.task_description),
                        tool_list := [],
                        status := .FAILED },
               { update := some { messages := some [workerTaskMessage task] },
                 goto := .goNode "planner" }) := by
            unfold workerNode
            rw [htask]
            simp only [hforb]
            rw [if_neg (by simp), if_pos hempty]
          exact ⟨_, _, heq, Or.inr rfl, rfl⟩
        · have heq : workerNode state (.ok msgs) =
              (some { task with status := .COMPLETED },
               { update := some { messages := some msgs },
                 goto := .goNode "planner" }) := by
            unfold workerNode
            rw [htask]
            simp only [hforb]
            rw [if_neg (by simp), if_neg hempty]
          exact ⟨_, _, heq, Or.inl rfl, rfl⟩
      · have heq : workerNode state (.ok msgs) =
            (some { task with
                      execution_result := some
                        ("Task failed: Worker should not use flow control tools (" ++
                          String.intercalate ", "
                            (((extractTaskTools msgs).filter
                                fun t => forbidden_flow_tools.contains t.tool_name).map
                              fun t => t.tool_name) ++ ")"),
                      tool_list := extractTaskTools msgs,
                      status := .FAILED },
             { update := none, goto := .goNode "planner" }) := by
          unfold workerNode
          rw [htask]
          simp only [ne_eq, hforb, not_false_eq_true, if_true]
        exact ⟨_, _, heq, Or.inr rfl, rfl⟩

/-- C1 witness: a step with one PENDING and one COMPLETED task fans out one
branch for the PENDING task, and a worker holding that task settles it. -/
theorem claim1_witness :
    (∃ (state2 : AgentState) (sends : List Send),
      plannerNode 10 sampleState (.parseFailure "") =
        some (state2, { update := none, goto := .goSends sends }) ∧
      sends.length =
        (sampleStep.tasks.filter fun t => isPendingStatus t.status).length ∧
      (∀ (i : Nat) (hi : i < sends.length),
        sends[i].target = "worker_node" ∧
        ∃ hp : i < (sampleStep.tasks.filter fun t => isPendingStatus t.status).length,
          sends[i].branch_state.current_task =
            some { (sampleStep.tasks.filter fun t => isPendingStatus t.status)[i] with
                   status := Status.EXECUTING }) ∧
      (∃ (plan2 : Plan) (step2 : Step),
        state2.current_plan = some plan2 ∧
        plan2.current_step_index = samplePlan.current_step_index ∧
        plan2.steps.length = samplePlan.steps.length ∧
        plan2.steps[samplePlan.current_step_index]? = some step2 ∧
        step2.tasks.length = sampleStep.tasks.length ∧
        ∀ (j : Nat) (hj : j < sampleStep.tasks.length),
          step2.tasks[j]? = some
            (if isPendingStatus sampleStep.tasks[j].status
             then { sampleStep.tasks[j] with status := Status.EXECUTING }
             else sampleStep.tasks[j]))) ∧
    (∃ (t2 : Task) (cmd : Command),
      workerNode { current_task := some sampleTaskA } (.err "timeout") =
        (some t2, cmd) ∧
      (t2.status = .COMPLETED ∨ t2.status = .FAILED) ∧
      cmd.goto = .goNode "planner") :=
  ⟨claim1_fanout_dispatch_and_worker_settlement.1 10 sampleState (.parseFailure "")
      samplePlan sampleStep (by decide) rfl (by decide) (by decide),
   claim1_fanout_dispatch_and_worker_settlement.2 { current_task := some sampleTaskA }
      sampleTaskA (.err "timeout") rfl⟩

/-! ## C4 — step-index invariant -/

/-- C4: the cursor invariant `0 ≤ current_step_index ≤ len(steps)` is
preserved by every planner pass (0 ≤ being inherent in the `Nat` cursor):
after applying the returned command, the plan's cursor either is unchanged
or has grown by exactly 1, the latter only with the previously current step
marked COMPLETED; the step count never changes; and a worker pass never
touches `current_plan` at all. -/
theorem claim4_step_index_invariant :
    (∀ (maxIter : Nat) (state : AgentState) (outcome : PlanLLMOutcome)
       (plan : Plan) (res : AgentState × Command),
      state.current_plan = some plan →
      plan.current_step_index ≤ plan.steps.length →
      plannerNode maxIter state outcome = some res →
      ∃ plan2 : Plan,
        (applyCommand res.1 res.2).current_plan = some plan2 ∧
        plan2.steps.length = plan.steps.length ∧
        plan2.current_step_index ≤ plan2.steps.length ∧
        (plan2.current_step_index = plan.current_step_index ∨
          (plan2.current_step_index = plan.current_step_index + 1 ∧
            ∃ step2 : Step,
              plan2.steps[plan.current_step_index]? = some step2 ∧
              step2.status = .COMPLETED))) ∧
    (∀ (state : AgentState) (outcome : AgentOutcome),
      (applyCommand state (workerNode state outcome).2).current_plan =
        state.current_plan) := by
  constructor
  · intro maxIter state outcome plan res hplan hwf hres
    by_cases hcap : state.plan_iterations ≥ maxIter
    · rw [plannerNode_cap_eq maxIter state outcome hcap] at hres
      have hr := Option.some.inj hres
      subst hr
      exact ⟨plan, by simpa [applyCommand] using hplan, rfl, hwf, Or.inl rfl⟩
    · by_cases hpending : hasPendingStep plan = true
      · obtain ⟨hlt, hsome⟩ := getCurrentStep_of_hasPendingStep hpending
        set step := plan.steps.get ⟨plan.current_step_index, hlt⟩ with hstepdef
        by_cases hwork : hasPendingWorkerTasks (some step) = true
        · rw [plannerNode_execute_eq maxIter state outcome plan step hcap hplan
            hsome hwork] at hres
          by_cases hpend0 : (step.tasks.filter fun t => isPendingStatus t.status) = []
          · rw [executeWorkerTasks_empty_eq state plan step hpend0] at hres
            have hr := Option.some.inj hres
            subst hr
            exact ⟨plan, by simpa [applyCommand] using hplan, rfl, hwf, Or.inl rfl⟩
          · rw [executeWorkerTasks_dispatch_eq state plan step hpend0] at hres
            have hr := Option.some.inj hres
            subst hr
            refine ⟨setCurrentStep plan (markPendingExecuting step),
                    by simp [applyCommand], by simp [setCurrentStep], ?_, Or.inl rfl⟩
            simp only [setCurrentStep, List.length_set]
            exact hwf
        · rw [plannerNode_analyze_eq maxIter state outcome plan step hcap hplan
            hsome (by simpa using hwork)] at hres
          by_cases hfail : ((step.tasks.filter fun t => isFailedStatus t.status) ≠ [] ∧
              (step.tasks.filter fun t => isFailedStatus t.status).length =
                step.tasks.length)
          · rw [analyzeStepResults_allFailed_eq state plan step hfail] at hres
            have hr := Option.some.inj hres
            subst hr
            exact ⟨plan, by simpa [applyCommand] using hplan, rfl, hwf, Or.inl rfl⟩
          · rw [analyzeStepResults_advance_eq state plan step hfail] at hres
            have hr := Option.some.inj hres
            subst hr
            refine ⟨advancePlan plan step,
                    by simp [applyCommand, applyUpdate],
                    by simp [advancePlan, setCurrentStep], ?_, ?_⟩
            · simp only [advancePlan, setCurrentStep, List.length_set]
              omega
            · refine Or.inr ⟨rfl, { step with status := .COMPLETED }, ?_, rfl⟩
              simp [advancePlan, setCurrentStep, List.getElem?_set_self, hlt]
      · rw [plannerNode_allDone_eq maxIter state outcome plan hcap hplan
          hpending] at hres
        have hr := Option.some.inj hres
        subst hr
        exact ⟨plan, by simpa [applyCommand] using hplan, rfl, hwf, Or.inl rfl⟩
  · intro state outcome
    unfold workerNode
    cases htask : state.current_task with
    | none => simp [applyCommand]
    | some task =>
      cases outcome with
      | err e => simp [applyCommand, applyUpdate]
      | ok msgs =>
        by_cases hforb : (((extractTaskTools msgs).filter
            fun t => forbidden_flow_tools.contains t.tool_name).map
            fun t => t.tool_name) = []
        · by_cases hempty : extractTaskTools msgs = []
          · simp only [hforb]
            rw [if_neg (by simp), if_pos hempty]
            simp [applyCommand, applyUpdate]
          · simp only [hforb]
            rw [if_neg (by simp), if_neg hempty]
            simp [applyCommand, applyUpdate]
        · simp only [ne_eq, hforb, not_false_eq_true, if_true]
          simp [applyCommand, applyUpdate]

/-- C4 witness: one settled-step planner pass on a well-formed plan keeps
the invariant, advancing the cursor by exactly one with the step completed;
and a worker pass leaves `current_plan` alone. -/
theorem claim4_witness :
    (∃ plan2 : Plan,
      (applyCommand
        (plannerNode 10 settledState (.parseFailure "")).get!.1
        (plannerNode 10 settledState (.parseFailure "")).get!.2).current_plan = some plan2 ∧
      plan2.steps.length = settledPlan.steps.length ∧
      plan2.current_step_index ≤ plan2.steps.length ∧
      (plan2.current_step_index = settledPlan.current_step_index ∨
        (plan2.current_step_index = settledPlan.current_step_index + 1 ∧
          ∃ step2 : Step,
            plan2.steps[settledPlan.current_step_index]? = some step2 ∧
            step2.status = .COMPLETED))) ∧
    (applyCommand { current_task := some sampleTaskA }
        (workerNode { current_task := some sampleTaskA } (.err "timeout")).2).current_plan =
      ({ current_task := some sampleTaskA } : AgentState).current_plan :=
  ⟨claim4_step_index_invariant.1 10 settledState (.parseFailure "") settledPlan
      (plannerNode 10 settledState (.parseFailure "")).get! rfl (by decide)
      rfl,
   claim4_step_index_invariant.2 { current_task := some sampleTaskA } (.err "timeout")⟩

/-! ## C8 — ReAct response parsing (corrected) -/

/-- C8 counterexample: on input `"3"` — valid JSON that is not an object —
`_parse_react_response` returns the bare parsed value `3`, not a
dictionary, refuting "for every input string, `_parse_react_response`
returns a dictionary". -/
theorem claim8_counterexample :
    parseReactResponse "3" = JsonVal.num "3" ∧
      (parseReactResponse "3").isObj = false :=
  ⟨rfl, rfl⟩

/-- C8 amended: `_parse_react_response` is total and returns the parsed
JSON value as-is (a dictionary only when the JSON happens to be an object);
whenever JSON parsing of the extracted text fails, it returns the implicit
finish dictionary whose `final_answer` is the extracted text (the stripped
raw response when no fenced block or brace span is found), and
`reasoning_node` then turns it into `react_finish` with `plan_result` equal
to that answer. -/
theorem claim8_amended_parse_fallback (content : String)
    (hfail : jsonLoads (extractReactContent content) = none) :
    parseReactResponse content =
      .obj [("thought", .str "Unable to parse response, ending with available information."),
            ("action", .str "finish"),
            ("final_answer", .str (extractReactContent content))] ∧
    (∀ state : AgentState, state.react_iterations < MAX_REACT_ITERATIONS →
      ∃ u : StateUpdate,
        reasoningNode state (.response content) =
          { update := some u, goto := .goNode "action" } ∧
        u.react_finish = some true ∧
        u.plan_result = some (.str (extractReactContent content)) ∧
        u.react_iterations = some (state.react_iterations + 1)) := by
  have hparse : parseReactResponse content =
      .obj [("thought", .str "Unable to parse response, ending with available information."),
            ("action", .str "finish"),
            ("final_answer", .str (extractReactContent content))] := by
    unfold parseReactResponse
    simp only [hfail]
  refine ⟨hparse, fun state hlt => ?_⟩
  unfold reasoningNode
  rw [if_neg (by omega)]
  simp only [hparse]
  exact ⟨_, rfl, rfl, rfl, rfl⟩

/-- C8 witness: the non-JSON response `"not json"` falls back to an
implicit finish carrying the text, and a reasoning pass below the cap turns
it into `react_finish` with that `plan_result`. -/
theorem claim8_witness :
    parseReactResponse "not json" =
      .obj [("thought", .str "Unable to parse response, ending with available information."),
            ("action", .str "finish"),
            ("final_answer", .str (extractReactContent "not json"))] ∧
    (∀ state : AgentState, state.react_iterations < MAX_REACT_ITERATIONS →
      ∃ u : StateUpdate,
        reasoningNode state (.response "not json") =
          { update := some u, goto := .goNode "action" } ∧
        u.react_finish = some true ∧
        u.plan_result = some (.str (extractReactContent "not json")) ∧
        u.react_iterations = some (state.react_iterations + 1)) :=
  claim8_amended_parse_fallback "not json" rfl

/-! ## C9 — ReAct iteration accounting (corrected) -/

/-- C9 counterexample: a reasoning pass whose LLM call raises (here at
`react_iterations = 0`, well below the cap) does not increment
`react_iterations`, refuting "every reasoning pass increases
`react_iterations` by exactly 1". -/
theorem claim9_counterexample :
    ({} : AgentState).react_iterations < MAX_REACT_ITERATIONS ∧
    (applyCommand {} (reasoningNode {} (.llmError "connection reset"))).react_iterations ≠
      ({} : AgentState).react_iterations + 1 := by
  constructor
  · decide
  · decide

/-- C9 amended: a reasoning pass below the cap whose response parses into a
dict with a sliceable `thought` increments `react_iterations` by exactly 1;
a pass whose LLM call raises, and a pass entered at or above the cap, force
`react_finish` without incrementing; and `should_continue` returns `"end"`
exactly when `react_finish` is set, `react_iterations` has reached the cap
of 15, or the current action equals `"finish"`, returning `"continue"`
otherwise. -/
theorem claim9_amended_iteration_behavior :
    (∀ (state : AgentState) (content : String) (fields : List (String × JsonVal)),
      state.react_iterations < MAX_REACT_ITERATIONS →
      parseReactResponse content = .obj fields →
      pySliceable (jGet fields "thought" (.str "")) = true →
      ∃ u : StateUpdate,
        reasoningNode state (.response content) =
          { update := some u, goto := .goNode "action" } ∧
        u.react_iterations = some (state.react_iterations + 1)) ∧
    (∀ (state : AgentState) (e : String),
      state.react_iterations < MAX_REACT_ITERATIONS →
      ∃ u : StateUpdate,
        reasoningNode state (.llmError e) =
          { update := some u, goto := .goNode "action" } ∧
        u.react_finish = some true ∧ u.react_iterations = none) ∧
    (∀ (state : AgentState) (outcome : ReactOutcome),
      MAX_REACT_ITERATIONS ≤ state.react_iterations →
      ∃ u : StateUpdate,
        reasoningNode state outcome =
          { update := some u, goto := .goNode "action" } ∧
        u.react_finish = some true ∧ u.react_iterations = none) ∧
    (∀ state : AgentState,
      (shouldContinue state = "end" ↔
        (state.react_finish = true ∨
          MAX_REACT_ITERATIONS ≤ state.react_iterations ∨
          jsonIsStr (state.react_current_action.getD (.str "")) "finish" = true)) ∧
      (shouldContinue state = "end" ∨ shouldContinue state = "continue")) := by
  refine ⟨?_, ?_, ?_, ?_⟩
  · intro state content fields hlt hobj hslice
    unfold reasoningNode
    rw [if_neg (by omega)]
    simp only [hobj]
    rw [if_pos hslice]
    exact ⟨_, rfl, by split <;> rfl⟩
  · intro state e hlt
    unfold reasoningNode
    rw [if_neg (by omega)]
    exact ⟨_, rfl, rfl, rfl⟩
  · intro state outcome hge
    unfold reasoningNode
    rw [if_pos hge]
    exact ⟨_, rfl, rfl, rfl⟩
  · intro state
    constructor
    · unfold shouldContinue
      split_ifs with h1 h2 h3
      · simp [h1]
      · simp [h2]
      · simp [h3]
      · simp [h1, h2, h3]
    · unfold shouldContinue
      split_ifs <;> simp

/-- C9 witness: a parsed `call_tool` pass at iteration 0 increments to 1;
an LLM error pass and a capped pass finish without incrementing; and
`should_continue` flags a finished state as `"end"`. -/
theorem claim9_witness :
    (∃ u : StateUpdate,
      reasoningNode initialStateSample
          (.response "\x7b\"action\": \"call_tool\", \"tool_name\": \"query_poi\"\x7d") =
        { update := some u, goto := .goNode "action" } ∧
      u.react_iterations = some (initialStateSample.react_iterations + 1)) ∧
    (∃ u : StateUpdate,
      reasoningNode initialStateSample (.llmError "connection reset") =
        { update := some u, goto := .goNode "action" } ∧
      u.react_finish = some true ∧ u.react_iterations = none) ∧
    (∃ u : StateUpdate,
      reasoningNode { react_iterations := 15 } (.response "\x7b\"action\": \"finish\"\x7d") =
        { update := some u, goto := .goNode "action" } ∧
      u.react_finish = some true ∧ u.react_iterations = none) ∧
    ((shouldContinue { react_finish := true } = "end" ↔
        (({ react_finish := true } : AgentState).react_finish = true ∨
          MAX_REACT_ITERATIONS ≤ ({ react_finish := true } : AgentState).react_iterations ∨
          jsonIsStr (({ react_finish := true } : AgentState).react_current_action.getD
            (.str "")) "finish" = true)) ∧
      (shouldContinue { react_finish := true } = "end" ∨
        shouldContinue { react_finish := true } = "continue")) :=
  ⟨claim9_amended_iteration_behavior.1 initialStateSample
      "\x7b\"action\": \"call_tool\", \"tool_name\": \"query_poi\"\x7d"
      [("action", .str "call_tool"), ("tool_name", .str "query_poi")]
      (by decide) rfl rfl,
   claim9_amended_iteration_behavior.2.1 initialStateSample "connection reset" (by decide),
   claim9_amended_iteration_behavior.2.2.1 { react_iterations := 15 }
      (.response "\x7b\"action\": \"finish\"\x7d") (by decide),
   claim9_amended_iteration_behavior.2.2.2 { react_finish := true }⟩

/-! ## C10 — `prepare_initial_state` -/

/-- Association lookup distributes over append, preferring the left list. -/
lemma lookup_append {α β : Type} [BEq α] (l1 l2 : List (α × β)) (k : α) :
    (l1 ++ l2).lookup k =
      match l1.lookup k with
      | some v => some v
      | none => l2.lookup k := by
  induction l1 with
  | nil => simp [List.lookup]
  | cons a t ih =>
    obtain ⟨x, y⟩ := a
    by_cases h : k == x
    · simp [List.lookup, h]
    · simp only [List.cons_append, List.lookup, h]
      exact ih

/-- The kwargs-merging loop never changes a key already present in the
state dict: presets win over colliding keyword arguments. -/
lemma mergeKwargs_lookup (kwargs st : List (String × KwVal)) (k : String)
    (h : (st.lookup k).isSome) :
    (mergeKwargs st kwargs).lookup k = st.lookup k := by
  induction kwargs generalizing st with
  | nil => rfl
  | cons kv rest ih =>
    have hpres : (insertIfAbsent st kv.1 kv.2).lookup k = st.lookup k := by
      unfold insertIfAbsent
      split
      · rfl
      · rw [lookup_append]
        cases hst : st.lookup k with
        | some v => rfl
        | none =>
          rw [hst] at h
          simp at h
    have hmerge : mergeKwargs st (kv :: rest) =
        mergeKwargs (insertIfAbsent st kv.1 kv.2) rest := rfl
    rw [hmerge, ih (insertIfAbsent st kv.1 kv.2) (by rw [hpres]; exact h), hpres]

/-- C10: both `prepare_initial_state` implementations seed their preset
fields — `current_plan = None`, `plan_iterations = 0` and empty `messages`
for Plan-and-Execute; `react_iterations = 0`, `react_finish = False` and
empty `messages` for ReAct — for every query, context and extra keyword
arguments; keyword arguments colliding with a preset key are ignored (the
preset wins), while `poi_map` is taken from the keyword arguments when
present (empty otherwise). -/
theorem claim10_prepare_initial_state (query : String) (context : Option String)
    (kwargs : List (String × KwVal)) :
    ((prepareInitialStatePE query context kwargs).lookup "current_plan" =
      some (.planV none)) ∧
    ((prepareInitialStatePE query context kwargs).lookup "plan_iterations" =
      some (.natV 0)) ∧
    ((prepareInitialStatePE query context kwargs).lookup "messages" =
      some (.msgs [])) ∧
    ((prepareInitialStatePE query context kwargs).lookup "poi_map" =
      some ((kwargs.lookup "poi_map").getD (.poiMap []))) ∧
    ((prepareInitialStateReact query context kwargs).lookup "react_iterations" =
      some (.natV 0)) ∧
    ((prepareInitialStateReact query context kwargs).lookup "react_finish" =
      some (.boolV false)) ∧
    ((prepareInitialStateReact query context kwargs).lookup "messages" =
      some (.msgs [])) ∧
    ((prepareInitialStateReact query context kwargs).lookup "poi_map" =
      some ((kwargs.lookup "poi_map").getD (.poiMap []))) := by
  refine ⟨?_, ?_, ?_, ?_, ?_, ?_, ?_, ?_⟩ <;>
    first
      | (rw [show prepareInitialStatePE query context kwargs =
            mergeKwargs
              [("query", .str query),
               ("context", optStrVal context),
               ("messages", .msgs []),
               ("poi_map", (kwargs.lookup "poi_map").getD (.poiMap [])),
               ("current_plan", .planV none),
               ("plan_iterations", .natV 0)] kwargs from rfl,
           mergeKwargs_lookup kwargs _ _ (by rfl)]
         rfl)
      | (rw [show prepareInitialStateReact query context kwargs =
            mergeKwargs
              [("query", .str query),
               ("context", optStrVal context),
               ("messages", .msgs []),
               ("poi_map", (kwargs.lookup "poi_map").getD (.poiMap [])),
               ("react_iterations", .natV 0),
               ("react_thoughts", .thoughtsV []),
               ("react_actions", .actionsV []),
               ("react_finish", .boolV false),
               ("plan_result", .noneV)] kwargs from rfl,
           mergeKwargs_lookup kwargs _ _ (by rfl)]
         rfl)

end MobilityBench
